import Mathlib

set_option maxHeartbeats 1000000

/-!  A shallow embedding of the kmonkey tokenizer/Pratt-parser front end
(keiya01/kmonkey): the token model (src/interpreter/token.rs and
src/src/token.rs), the AST literals (src/src/ast/lit.rs) and the Pratt
expression engine (src/src/parser/expr.rs).  Parts of the repository that
the parser file uses but whose sources are not present (the Parser
state/advance helpers, the statement and expression AST shells, the
operator enums and their precedence order) are modelled from the spec and
carry a doc comment saying so.  -/

namespace Kmonkey

/-- The token model of src/interpreter/token.rs (the String-payload variant
the parser operates on); `i64` payloads are modelled as `Int`. -/
inductive Token where
  | ILLEGAL
  | EOF
  | IDENT (s : String)
  | INT (n : Int)
  | ASSIGN
  | PLUS
  | MINUS
  | BANG
  | ASTERISK
  | SLASH
  | LT
  | GT
  | EQ
  | NotEq
  | COMMA
  | SEMICOLON
  | LPAREN
  | RPAREN
  | LBRACE
  | RBRACE
  | FUNCTION
  | LET
  | TRUE
  | FALSE
  | IF
  | ELSE
  | RETURN
  deriving DecidableEq

/-- The `impl fmt::Display for Token` of src/interpreter/token.rs. -/
def Token.toDisplay : Token → String
  | .ILLEGAL => "ILLEGAL"
  | .EOF => "EOF"
  | .IDENT s => "IDENT(" ++ s ++ ")"
  | .INT n => "INT(" ++ toString n ++ ")"
  | .ASSIGN => "ASSIGN"
  | .PLUS => "PLUS"
  | .MINUS => "MINUS"
  | .BANG => "BANG"
  | .ASTERISK => "ASTERISK"
  | .SLASH => "SLASH"
  | .LT => "LT"
  | .GT => "GT"
  | .EQ => "EQ"
  | .NotEq => "NotEq"
  | .COMMA => "COMMA"
  | .SEMICOLON => "SEMICOLON"
  | .LPAREN => "LPAREN"
  | .RPAREN => "RPAREN"
  | .LBRACE => "LBRACE"
  | .RBRACE => "RBRACE"
  | .FUNCTION => "FUNCTION"
  | .LET => "LET"
  | .TRUE => "TRUE"
  | .FALSE => "FALSE"
  | .IF => "IF"
  | .ELSE => "ELSE"
  | .RETURN => "RETURN"

/-- The `#[derive(Debug)]` formatting of Token (src/src/token.rs /
src/interpreter/token.rs), used by `no_prefix_parse_error`'s `{:?}` format:
a unit variant prints its name (identical to the Display output above); a
payload variant prints its payload in Rust Debug form, which quotes a
string payload. -/
def Token.debugFmt : Token → String
  | .IDENT s => "IDENT(" ++ "\"" ++ s ++ "\")"
  | .INT n => "INT(" ++ toString n ++ ")"
  | t => t.toDisplay

/-- The variant tag of a Token, to express "different variants" claims. -/
def Token.tag : Token → Nat
  | .ILLEGAL => 0
  | .EOF => 1
  | .IDENT _ => 2
  | .INT _ => 3
  | .ASSIGN => 4
  | .PLUS => 5
  | .MINUS => 6
  | .BANG => 7
  | .ASTERISK => 8
  | .SLASH => 9
  | .LT => 10
  | .GT => 11
  | .EQ => 12
  | .NotEq => 13
  | .COMMA => 14
  | .SEMICOLON => 15
  | .LPAREN => 16
  | .RPAREN => 17
  | .LBRACE => 18
  | .RBRACE => 19
  | .FUNCTION => 20
  | .LET => 21
  | .TRUE => 22
  | .FALSE => 23
  | .IF => 24
  | .ELSE => 25
  | .RETURN => 26

/-- Modelled from the spec: the prefix operator kinds of ast/operator.rs
(absent from src/); display strings "-" and "!" from the spec §8 renderings
(`(-a)`, `(!(-a))`). -/
inductive Prefix where
  | Minus
  | Bang
  deriving DecidableEq

def Prefix.toDisplay : Prefix → String
  | .Minus => "-"
  | .Bang => "!"

/-- Modelled from the spec: the infix operator kinds of ast/operator.rs
(absent from src/), the eight operators `+ - / * > < == !=` of spec §4.4. -/
inductive Infix where
  | Plus
  | Minus
  | Slash
  | Asterisk
  | Gt
  | Lt
  | Equal
  | NotEq
  deriving DecidableEq

def Infix.toDisplay : Infix → String
  | .Plus => "+"
  | .Minus => "-"
  | .Slash => "/"
  | .Asterisk => "*"
  | .Gt => ">"
  | .Lt => "<"
  | .Equal => "=="
  | .NotEq => "!="

/-- Modelled from the spec: the precedence levels of ast/operator.rs
(absent from src/), ordered `Lowest < Equals < LtGt < Sum < Product <
Prefix < Call` (spec §4.4; Rust derives the order from declaration
order). -/
inductive BinaryOperator where
  | Lowest
  | Equals
  | LtGt
  | Sum
  | Product
  | Prefix
  | Call
  deriving DecidableEq

/-- The position of a precedence level in the declared order. -/
def BinaryOperator.rank : BinaryOperator → Nat
  | .Lowest => 0
  | .Equals => 1
  | .LtGt => 2
  | .Sum => 3
  | .Product => 4
  | .Prefix => 5
  | .Call => 6

/-- The derived `<` on BinaryOperator (declaration order). -/
def BinaryOperator.blt (a b : BinaryOperator) : Bool :=
  a.rank < b.rank

/-- `Token::to_binary_operator` (src/src/parser/expr.rs, lines 8-18). -/
def Token.to_binary_operator : Token → BinaryOperator
  | .EQ | .NotEq => .Equals
  | .LT | .GT => .LtGt
  | .PLUS | .MINUS => .Sum
  | .ASTERISK | .SLASH => .Product
  | _ => .Lowest

/-- Modelled from the spec: the identifier AST node of ast/ident.rs (absent
from src/): it holds its text. -/
structure Identifier where
  value : String
  deriving DecidableEq

/-- `Integer` of src/src/ast/lit.rs. -/
structure Integer where
  value : Int
  deriving DecidableEq

/-- `Boolean` of src/src/ast/lit.rs. -/
structure Boolean where
  value : Bool
  deriving DecidableEq

mutual

/-- Modelled from the spec: the expression node of ast/expr.rs (absent from
src/): polymorphic over identifier, literal, prefix, infix and
if-expression (the capability set of spec §3; call expressions are not in
the shown core). -/
inductive Expression where
  | Identifier (i : Identifier)
  | Literal (l : Literal)
  | Prefix (e : PrefixExpression)
  | Infix (e : InfixExpression)
  | If (e : IfExpression)

/-- Modelled from the spec: `PrefixExpression::new(operator, right)`. -/
inductive PrefixExpression where
  | mk (operator : Prefix) (right : Expression)

/-- Modelled from the spec: `InfixExpression::new(left, operator, right)`. -/
inductive InfixExpression where
  | mk (left : Expression) (operator : Infix) (right : Expression)

/-- Modelled from the spec: `IfExpression::new(condition, consequence,
alternative)`; the alternative is optional. -/
inductive IfExpression where
  | mk (condition : Expression) (consequence : BlockStatement)
       (alternative : Option BlockStatement)

/-- `Literal` of src/src/ast/lit.rs: Integer, Boolean or Func. -/
inductive Literal where
  | Integer (i : Integer)
  | Boolean (b : Boolean)
  | Func (f : Func)

/-- `Func` of src/src/ast/lit.rs: parameter identifiers and a body block. -/
inductive Func where
  | mk (args : List Identifier) (body : BlockStatement)

/-- Modelled from the spec: the statement node of ast/stmt.rs (absent from
src/); only expression statements appear in the shown core (spec §3: let
and return statements are the external collaborators' concern). -/
inductive Statement where
  | Expr (e : Expression)

/-- Modelled from the spec: a block statement is an ordered sequence of
statements (ast/stmt.rs is absent from src/). -/
inductive BlockStatement where
  | mk (statements : List Statement)

end

/-- The `(l op r)` shape of the infix Display rendering (spec §6:
rendering fully parenthesizes binary operations). -/
def renderInfix (l s r : String) : String :=
  "(" ++ l ++ " " ++ s ++ " " ++ r ++ ")"

/-- The `(op r)` shape of the prefix Display rendering (spec §8: `(-a)`,
`(!(-a))`). -/
def renderPre (s r : String) : String :=
  "(" ++ s ++ r ++ ")"

/-- The argument segment of `impl fmt::Display for Func`
(src/src/ast/lit.rs, lines 68-77): each argument's name with `", "`
written after it, the last included. -/
def funcArgsStr : List Identifier → String
  | [] => ""
  | a :: rest => a.value ++ ", " ++ funcArgsStr rest

mutual

/-- Modelled from the spec: the canonical Display rendering of an
expression (ast/expr.rs is absent from src/): identifiers render as their
text, literals by src/src/ast/lit.rs, prefix and infix expressions fully
parenthesized (spec §6), if-expressions as `if` condition, consequence
and optional `else` alternative. -/
def Expression.render : Expression → String
  | .Identifier i => i.value
  | .Literal l => Literal.render l
  | .Prefix (.mk op r) => renderPre op.toDisplay (Expression.render r)
  | .Infix (.mk l op r) =>
      renderInfix (Expression.render l) op.toDisplay (Expression.render r)
  | .If (.mk c cons alt) =>
      "if" ++ Expression.render c ++ " " ++ BlockStatement.render cons
        ++ renderAlt alt

/-- The Display rendering of src/src/ast/lit.rs: an Integer prints its
value, a Boolean prints `true`/`false`, a Func prints `fn(`, its arguments
each with a trailing `", "`, then `) ` and its body. -/
def Literal.render : Literal → String
  | .Integer i => toString i.value
  | .Boolean b => if b.value then "true" else "false"
  | .Func (.mk args body) =>
      "fn(" ++ funcArgsStr args ++ ") " ++ BlockStatement.render body

/-- Modelled from the spec: a block renders as the concatenation of its
statements' renderings (spec §8 renders a program the same way). -/
def BlockStatement.render : BlockStatement → String
  | .mk stmts => renderStmts stmts

/-- The concatenation of a statement sequence's renderings. -/
def renderStmts : List Statement → String
  | [] => ""
  | s :: rest => Statement.render s ++ renderStmts rest

/-- Modelled from the spec: an expression statement renders as its
expression. -/
def Statement.render : Statement → String
  | .Expr e => Expression.render e

/-- The `else` part of the if-expression rendering: empty when absent. -/
def renderAlt : Option BlockStatement → String
  | none => ""
  | some b => "else " ++ BlockStatement.render b

end

/-- Modelled from the spec: the parser state (spec §4.4): the current
token, one token of lookahead, the not-yet-pulled remainder of the token
stream (standing for the lexer, which yields `EOF` forever once
exhausted), and the accumulating error list. -/
structure Parser where
  current_token : Token
  peek_token : Token
  rest : List Token
  errors : List String

/-- Modelled from the spec: `Parser::next_token` advances the two-token
lookahead buffer; an exhausted stream supplies `EOF`. -/
def Parser.next_token (p : Parser) : Parser :=
  { p with
    current_token := p.peek_token
    peek_token := p.rest.headD Token.EOF
    rest := p.rest.tail }

/-- Modelled from the spec: `Parser::new` primes `current_token` and
`peek_token` from the stream and starts with no errors. -/
def mkParser (ts : List Token) : Parser :=
  { current_token := ts.headD Token.EOF
    peek_token := (ts.drop 1).headD Token.EOF
    rest := ts.drop 2
    errors := [] }

/-- Modelled from the spec: the "expect peek token, else record error"
helper (spec §4.4/§7): when the lookahead is the wanted token, advance and
succeed; otherwise record a descriptive error and fail without
advancing. -/
def Parser.expect_peek (p : Parser) (t : Token) : Bool × Parser :=
  if p.peek_token = t then (true, p.next_token)
  else
    (false,
     { p with
       errors := p.errors ++
         ["expected next token to be " ++ t.toDisplay ++ ", got "
           ++ p.peek_token.toDisplay ++ " instead"] })

/-- `Parser::no_prefix_parse_error` (src/src/parser/expr.rs, lines
176-179): pushes `no prefix parse function for {:?}` formatted at the
current token. -/
def Parser.no_prefix_parse_error (p : Parser) : Parser :=
  { p with
    errors := p.errors ++
      ["no prefix parse function for " ++ p.current_token.debugFmt] }

/-- The operator match of `Parser::parse_infix` (src/src/parser/expr.rs,
lines 54-64): the eight recognized infix operator tokens; the fall-through
arm yields `none` (the source returns `None` with no error recorded). -/
def infixOperatorOf : Token → Option Infix
  | .PLUS => some .Plus
  | .MINUS => some .Minus
  | .SLASH => some .Slash
  | .ASTERISK => some .Asterisk
  | .GT => some .Gt
  | .LT => some .Lt
  | .EQ => some .Equal
  | .NotEq => some .NotEq
  | _ => none

/-- The operator match of `Parser::parse_prefix_expression`
(src/src/parser/expr.rs, lines 104-111). -/
def prefixOperatorOf : Token → Option Prefix
  | .MINUS => some .Minus
  | .BANG => some .Bang
  | _ => none

/-- `Parser::parse_identifier` (src/src/parser/expr.rs, lines 79-81). -/
def parse_identifier (s : String) (p : Parser) : Option Expression × Parser :=
  (some (.Identifier ⟨s⟩), p)

/-- `Parser::parse_integer_literal` (src/src/parser/expr.rs, lines
83-91). -/
def parse_integer_literal (n : Int) (p : Parser) : Option Expression × Parser :=
  (some (.Literal (.Integer ⟨n⟩)), p)

/-- `Parser::parse_boolean_literal` (src/src/parser/expr.rs, lines
93-101): the value is whether the current token is `TRUE`. -/
def parse_boolean_literal (p : Parser) : Option Expression × Parser :=
  (some (.Literal (.Boolean ⟨decide (p.current_token = Token.TRUE)⟩)), p)

mutual

/-- `Parser::parse_expression` (src/src/parser/expr.rs, lines 21-36):
dispatch to a prefix rule, then run the precedence-climbing loop
(`parseExprLoop` embeds the `while`).  The `Nat` argument is recursion
fuel, an artifact of the embedding; every claim instantiates it amply. -/
def parse_expression : Nat → BinaryOperator → Parser → Option Expression × Parser
  | 0, _, p => (none, p)
  | fuel + 1, op, p =>
    match parsePrefix fuel p with
    | (none, p1) => (none, p1)
    | (some left, p1) => parseExprLoop fuel op left p1

/-- The `while` loop of `Parser::parse_expression` (src/src/parser/expr.rs,
lines 27-33): while the peeked token is not `SEMICOLON` and its precedence
strictly exceeds the caller's minimum, advance and fold the infix rule
into `left`. -/
def parseExprLoop : Nat → BinaryOperator → Expression → Parser → Option Expression × Parser
  | 0, _, left, p => (some left, p)
  | fuel + 1, op, left, p =>
    if p.peek_token ≠ Token.SEMICOLON ∧ op.blt p.peek_token.to_binary_operator = true then
      match parseInfix fuel left p.next_token with
      | (none, p1) => (none, p1)
      | (some left2, p1) => parseExprLoop fuel op left2 p1
    else (some left, p)

/-- `Parser::parse_prefix` (src/src/parser/expr.rs, lines 38-51): the
prefix dispatch on the current token; a token with no prefix rule records
`no_prefix_parse_error` and yields nothing. -/
def parsePrefix : Nat → Parser → Option Expression × Parser
  | 0, p => (none, p)
  | fuel + 1, p =>
    match p.current_token with
    | .IDENT s => parse_identifier s p
    | .INT n => parse_integer_literal n p
    | .TRUE => parse_boolean_literal p
    | .FALSE => parse_boolean_literal p
    | .BANG => parse_prefix_expression fuel p
    | .MINUS => parse_prefix_expression fuel p
    | .LPAREN => parse_grouped_expression fuel p
    | .IF => parse_if_expression fuel p
    | _ => (none, p.no_prefix_parse_error)

/-- `Parser::parse_infix` (src/src/parser/expr.rs, lines 53-77): resolve
the operator, remember its precedence, advance, parse the right operand at
that precedence, and build the infix node. -/
def parseInfix : Nat → Expression → Parser → Option Expression × Parser
  | 0, _, p => (none, p)
  | fuel + 1, left, p =>
    match infixOperatorOf p.current_token with
    | none => (none, p)
    | some operator =>
      let precedence := p.current_token.to_binary_operator
      match parse_expression fuel precedence p.next_token with
      | (none, p1) => (none, p1)
      | (some right, p1) => (some (.Infix (.mk left operator right)), p1)

/-- `Parser::parse_prefix_expression` (src/src/parser/expr.rs, lines
103-121): resolve `-`/`!`, advance, parse the operand at `Prefix`
precedence. -/
def parse_prefix_expression : Nat → Parser → Option Expression × Parser
  | 0, p => (none, p)
  | fuel + 1, p =>
    match prefixOperatorOf p.current_token with
    | none => (none, p.no_prefix_parse_error)
    | some operator =>
      match parse_expression fuel BinaryOperator.Prefix p.next_token with
      | (none, p1) => (none, p1)
      | (some right, p1) => (some (.Prefix (.mk operator right)), p1)

/-- `Parser::parse_grouped_expression` (src/src/parser/expr.rs, lines
123-133): advance past `(`, parse at `Lowest`, then require `)` via
`expect_peek`; a missing `)` records an error and yields nothing; a
present `)` returns the inner expression unchanged. -/
def parse_grouped_expression : Nat → Parser → Option Expression × Parser
  | 0, p => (none, p)
  | fuel + 1, p =>
    match parse_expression fuel BinaryOperator.Lowest p.next_token with
    | (left, p1) =>
      match p1.expect_peek Token.RPAREN with
      | (false, p2) => (none, p2)
      | (true, p2) => (left, p2)

/-- `Parser::parse_if_expression` (src/src/parser/expr.rs, lines 135-174):
`if ( condition ) { consequence }` with an optional `else { alternative }`;
the `else` keyword is checked only by lookahead (a missing `else` is never
an error), but a present `else` not followed by `{` is a recorded error. -/
def parse_if_expression : Nat → Parser → Option Expression × Parser
  | 0, p => (none, p)
  | fuel + 1, p =>
    match p.expect_peek Token.LPAREN with
    | (false, p1) => (none, p1)
    | (true, p1) =>
      match parse_expression fuel BinaryOperator.Lowest p1.next_token with
      | (none, p3) => (none, p3)
      | (some condition, p3) =>
        match p3.expect_peek Token.RPAREN with
        | (false, p4) => (none, p4)
        | (true, p4) =>
          match p4.expect_peek Token.LBRACE with
          | (false, p5) => (none, p5)
          | (true, p5) =>
            match parse_block_statement fuel p5 with
            | (consequence, p6) =>
              if p6.peek_token = Token.ELSE then
                match (p6.next_token).expect_peek Token.LBRACE with
                | (false, p8) => (none, p8)
                | (true, p8) =>
                  match parse_block_statement fuel p8 with
                  | (alternative, p9) =>
                    (some (.If (.mk condition consequence (some alternative))), p9)
              else (some (.If (.mk condition consequence none)), p6)

/-- Modelled from the spec: `Parser::parse_block_statement` (parser/stmt.rs
is absent from src/): advance past `{` and collect statements until
`RBRACE` or `EOF` (a block is a possibly empty ordered sequence of
statements, spec §3). -/
def parse_block_statement : Nat → Parser → BlockStatement × Parser
  | 0, p => (.mk [], p)
  | fuel + 1, p => parseBlockLoop fuel [] p.next_token

/-- The statement-collecting loop of `parse_block_statement`. -/
def parseBlockLoop : Nat → List Statement → Parser → BlockStatement × Parser
  | 0, acc, p => (.mk acc, p)
  | fuel + 1, acc, p =>
    if p.current_token = Token.RBRACE ∨ p.current_token = Token.EOF then (.mk acc, p)
    else
      match parse_statement fuel p with
      | (stmtOpt, p1) => parseBlockLoop fuel (acc ++ stmtOpt.toList) p1.next_token

/-- Modelled from the spec: `Parser::parse_statement` (parser/stmt.rs is
absent from src/): dispatch on the current token; `let`/`return`
statements are outside the shown core (spec §1) and yield nothing here (no
claim exercises them); everything else is an expression statement. -/
def parse_statement : Nat → Parser → Option Statement × Parser
  | 0, p => (none, p)
  | fuel + 1, p =>
    match p.current_token with
    | Token.LET => (none, p)
    | Token.RETURN => (none, p)
    | _ => parse_expression_statement fuel p

/-- Modelled from the spec: an expression statement parses its expression
at `Lowest` precedence and then steps over an optional trailing
semicolon, so that `;`-separated top-level expressions parse
independently (spec §8). -/
def parse_expression_statement : Nat → Parser → Option Statement × Parser
  | 0, p => (none, p)
  | fuel + 1, p =>
    match parse_expression fuel BinaryOperator.Lowest p with
    | (none, p1) => (none, p1)
    | (some e, p1) =>
      if p1.peek_token = Token.SEMICOLON then (some (.Expr e), p1.next_token)
      else (some (.Expr e), p1)

end

/-- Modelled from the spec: the statement loop of `Parser::parse_program`:
until the current token is `EOF`, parse a statement, keep it when one was
produced, and advance. -/
def parseProgramLoop : Nat → List Statement → Parser → List Statement × Parser
  | 0, acc, p => (acc, p)
  | fuel + 1, acc, p =>
    if p.current_token = Token.EOF then (acc, p)
    else
      match parse_statement fuel p with
      | (stmtOpt, p1) => parseProgramLoop fuel (acc ++ stmtOpt.toList) p1.next_token

/-- Modelled from the spec: `Parser::parse_program` over a token stream,
with ample fuel for the programs the claims exercise. -/
def parse_program (ts : List Token) : List Statement × Parser :=
  parseProgramLoop 99 [] (mkParser ts)

/-- `parse_expression` at `Lowest` precedence on a fresh parser over the
given token stream, with ample fuel. -/
def runParse (ts : List Token) : Option Expression × Parser :=
  parse_expression 99 BinaryOperator.Lowest (mkParser ts)

/-- Whether a token has a prefix rule in `Parser::parse_prefix`
(src/src/parser/expr.rs, lines 38-51): exactly `IDENT`, `INT`, `TRUE`,
`FALSE`, `BANG`, `MINUS`, `LPAREN` and `IF` do. -/
def hasPrefixRule : Token → Bool
  | .IDENT _ | .INT _ | .TRUE | .FALSE | .BANG | .MINUS | .LPAREN | .IF => true
  | _ => false

/-- The display string of the infix operator a token resolves to (empty
for a non-operator token). -/
def infixDisplayOf (t : Token) : String :=
  match infixOperatorOf t with
  | some o => o.toDisplay
  | none => ""

/-- C1: for every pair of infix operator tokens of equal precedence,
parsing `a op1 b op2 c` succeeds and produces a left-leaning tree: the
result renders as `((a op1 b) op2 c)` — the strict `<` in the
`parse_expression` loop guard keeps an equal-precedence operator from
extending the right subtree. -/
theorem claim1_equal_precedence_left_leaning
    (op1 op2 : Token) (a b c : String)
    (h1 : (infixOperatorOf op1).isSome = true)
    (h2 : (infixOperatorOf op2).isSome = true)
    (hp : op1.to_binary_operator = op2.to_binary_operator) :
    ((runParse [.IDENT a, op1, .IDENT b, op2, .IDENT c]).1.map Expression.render)
      = some (renderInfix (renderInfix a (infixDisplayOf op1) b) (infixDisplayOf op2) c) := by
  cases op1 <;> try (simp [infixOperatorOf] at h1; done)
  all_goals (cases op2 <;> try (simp [infixOperatorOf] at h2; done))
  all_goals try (exact absurd hp (by decide))
  all_goals rfl

/-- Witness for C1 at `a + b - c`. -/
theorem claim1_witness :
    ((runParse [.IDENT "a", .PLUS, .IDENT "b", .MINUS, .IDENT "c"]).1.map Expression.render)
      = some (renderInfix (renderInfix "a" (infixDisplayOf Token.PLUS) "b")
          (infixDisplayOf Token.MINUS) "c") :=
  claim1_equal_precedence_left_leaning Token.PLUS Token.MINUS "a" "b" "c" rfl rfl rfl

/-- C2: the precedence order `Lowest < Equals < LtGt < Sum < Product <
Prefix < Call` holds level to level; `to_binary_operator` sends `EQ`/`NotEq`
to `Equals`, `LT`/`GT` to `LtGt`, `PLUS`/`MINUS` to `Sum`,
`ASTERISK`/`SLASH` to `Product` and every other token to `Lowest`; and the
parser respects it: `a + b * c` renders as `(a + (b * c))` and `a * b + c`
renders as `((a * b) + c)`. -/
theorem claim2_precedence_order_respected :
    (BinaryOperator.blt .Lowest .Equals = true
      ∧ BinaryOperator.blt .Equals .LtGt = true
      ∧ BinaryOperator.blt .LtGt .Sum = true
      ∧ BinaryOperator.blt .Sum .Product = true
      ∧ BinaryOperator.blt .Product .Prefix = true
      ∧ BinaryOperator.blt .Prefix .Call = true)
    ∧ (Token.to_binary_operator .EQ = .Equals
      ∧ Token.to_binary_operator .NotEq = .Equals
      ∧ Token.to_binary_operator .LT = .LtGt
      ∧ Token.to_binary_operator .GT = .LtGt
      ∧ Token.to_binary_operator .PLUS = .Sum
      ∧ Token.to_binary_operator .MINUS = .Sum
      ∧ Token.to_binary_operator .ASTERISK = .Product
      ∧ Token.to_binary_operator .SLASH = .Product)
    ∧ (∀ t : Token, infixOperatorOf t = none → t.to_binary_operator = .Lowest)
    ∧ (∀ a b c : String,
        ((runParse [.IDENT a, .PLUS, .IDENT b, .ASTERISK, .IDENT c]).1.map Expression.render)
          = some (renderInfix a "+" (renderInfix b "*" c))
        ∧ ((runParse [.IDENT a, .ASTERISK, .IDENT b, .PLUS, .IDENT c]).1.map Expression.render)
          = some (renderInfix (renderInfix a "*" b) "+" c)) := by
  refine ⟨by decide, by decide, ?_, fun a b c => ⟨rfl, rfl⟩⟩
  intro t h
  cases t <;> first
    | rfl
    | (simp [infixOperatorOf] at h)

/-- Witness for C2's implication conjunct at the token `COMMA`. -/
theorem claim2_witness :
    Token.to_binary_operator Token.COMMA = BinaryOperator.Lowest :=
  claim2_precedence_order_respected.2.2.1 Token.COMMA rfl

/-- C3: prefix operators bind tighter than every infix operator: `-a + b`
renders as `((-a) + b)` and `!-a` renders as `(!(-a))`. -/
theorem claim3_prefix_binds_tighter :
    (∀ a b : String,
      ((runParse [.MINUS, .IDENT a, .PLUS, .IDENT b]).1.map Expression.render)
        = some (renderInfix (renderPre "-" a) "+" b))
    ∧ (∀ a : String,
      ((runParse [.BANG, .MINUS, .IDENT a]).1.map Expression.render)
        = some (renderPre "!" (renderPre "-" a))) :=
  ⟨fun _ _ => rfl, fun _ => rfl⟩

/-- C4: `if ( x < y ) { x }` with no `ELSE` parses successfully into an
`IfExpression` with `alternative = none` and records no error; but when an
`ELSE` is present and the token after it is not `LBRACE`,
`parse_if_expression` records an error and returns no expression. -/
theorem claim4_if_else_optional :
    ((runParse [.IF, .LPAREN, .IDENT "x", .LT, .IDENT "y", .RPAREN, .LBRACE,
          .IDENT "x", .RBRACE]).1
        = some (.If (.mk (.Infix (.mk (.Identifier ⟨"x"⟩) .Lt (.Identifier ⟨"y"⟩)))
            (.mk [.Expr (.Identifier ⟨"x"⟩)]) none))
      ∧ (runParse [.IF, .LPAREN, .IDENT "x", .LT, .IDENT "y", .RPAREN, .LBRACE,
          .IDENT "x", .RBRACE]).2.errors = [])
    ∧ (∀ t : Token, t ≠ Token.LBRACE →
        (runParse [.IF, .LPAREN, .IDENT "c", .RPAREN, .LBRACE, .IDENT "x",
            .RBRACE, .ELSE, t]).1 = none
        ∧ (runParse [.IF, .LPAREN, .IDENT "c", .RPAREN, .LBRACE, .IDENT "x",
            .RBRACE, .ELSE, t]).2.errors
          = ["expected next token to be LBRACE, got " ++ t.toDisplay ++ " instead"]) := by
  refine ⟨⟨rfl, rfl⟩, ?_⟩
  intro t h
  cases t <;> first
    | exact absurd rfl h
    | exact ⟨rfl, rfl⟩

/-- Witness for C4's `else`-without-brace conjunct at the token `SEMICOLON`. -/
theorem claim4_witness :
    (runParse [.IF, .LPAREN, .IDENT "c", .RPAREN, .LBRACE, .IDENT "x",
        .RBRACE, .ELSE, Token.SEMICOLON]).1 = none
    ∧ (runParse [.IF, .LPAREN, .IDENT "c", .RPAREN, .LBRACE, .IDENT "x",
        .RBRACE, .ELSE, Token.SEMICOLON]).2.errors
      = ["expected next token to be LBRACE, got "
          ++ (Token.SEMICOLON).toDisplay ++ " instead"] :=
  claim4_if_else_optional.2 Token.SEMICOLON (by decide)

/-- C5: a grouped expression requires a matching `)` after the inner
expression — when the token there is not `RPAREN` (and does not extend the
inner expression), an error is recorded and no expression is returned;
with the `RPAREN` present, the inner expression is returned unchanged, so
`(a + b) * c` renders as `((a + b) * c)`. -/
theorem claim5_grouped_expression_requires_rparen :
    (∀ (a : String) (t : Token), t ≠ Token.RPAREN →
        t.to_binary_operator = BinaryOperator.Lowest →
        (runParse [.LPAREN, .IDENT a, t]).1 = none
        ∧ (runParse [.LPAREN, .IDENT a, t]).2.errors
          = ["expected next token to be RPAREN, got " ++ t.toDisplay ++ " instead"])
    ∧ (∀ a b c : String,
        ((runParse [.LPAREN, .IDENT a, .PLUS, .IDENT b, .RPAREN, .ASTERISK,
            .IDENT c]).1.map Expression.render)
          = some (renderInfix (renderInfix a "+" b) "*" c)) := by
  refine ⟨?_, fun a b c => rfl⟩
  intro a t h1 h2
  cases t <;> first
    | exact absurd rfl h1
    | exact absurd h2 (by decide)
    | exact ⟨rfl, rfl⟩

/-- Witness for C5's missing-`)` conjunct at the token `SEMICOLON`. -/
theorem claim5_witness :
    (runParse [.LPAREN, .IDENT "a", Token.SEMICOLON]).1 = none
    ∧ (runParse [.LPAREN, .IDENT "a", Token.SEMICOLON]).2.errors
      = ["expected next token to be RPAREN, got "
          ++ (Token.SEMICOLON).toDisplay ++ " instead"] :=
  claim5_grouped_expression_requires_rparen.1 "a" Token.SEMICOLON (by decide) rfl

/-- C6: for every current token with no prefix rule, `parse_expression`
appends exactly one error string of the form
`no prefix parse function for <token>` and returns no expression; for
these tokens the `{:?}` Debug rendering in the message coincides with the
Display rendering. -/
theorem claim6_no_prefix_parse_error
    (t : Token) (fuel : Nat) (op : BinaryOperator) (pk : Token)
    (rest : List Token) (er : List String) (h : hasPrefixRule t = false) :
    parse_expression (fuel + 2) op ⟨t, pk, rest, er⟩
      = (none, ⟨t, pk, rest, er ++ ["no prefix parse function for " ++ t.debugFmt]⟩)
    ∧ t.debugFmt = t.toDisplay := by
  cases t <;> first
    | exact ⟨rfl, rfl⟩
    | (simp [hasPrefixRule] at h)

/-- Witness for C6 at the token `SEMICOLON`. -/
theorem claim6_witness :
    parse_expression (0 + 2) BinaryOperator.Lowest ⟨Token.SEMICOLON, Token.EOF, [], []⟩
      = (none, ⟨Token.SEMICOLON, Token.EOF, [],
          [] ++ ["no prefix parse function for " ++ (Token.SEMICOLON).debugFmt]⟩)
    ∧ (Token.SEMICOLON).debugFmt = (Token.SEMICOLON).toDisplay :=
  claim6_no_prefix_parse_error Token.SEMICOLON 0 BinaryOperator.Lowest Token.EOF [] [] rfl

/-- C7: the `parse_expression` loop stops as soon as the peeked token is
`SEMICOLON`, and the program `3 + 4; -5 * 5` parses into two independent
statements whose concatenated rendering is `(3 + 4)((-5) * 5)`, with no
error recorded. -/
theorem claim7_semicolon_stops_expression :
    (∀ (fuel : Nat) (op : BinaryOperator) (left : Expression) (p : Parser),
        p.peek_token = Token.SEMICOLON →
        parseExprLoop (fuel + 1) op left p = (some left, p))
    ∧ renderStmts (parse_program
        [.INT 3, .PLUS, .INT 4, .SEMICOLON, .MINUS, .INT 5, .ASTERISK, .INT 5]).1
      = "(3 + 4)((-5) * 5)"
    ∧ (parse_program
        [.INT 3, .PLUS, .INT 4, .SEMICOLON, .MINUS, .INT 5, .ASTERISK, .INT 5]).2.errors
      = [] := by
  refine ⟨?_, rfl, rfl⟩
  intro fuel op left p h
  simp [parseExprLoop, h]

/-- Witness for C7's loop-guard conjunct with `SEMICOLON` peeked. -/
theorem claim7_witness :
    parseExprLoop (0 + 1) BinaryOperator.Lowest (.Identifier ⟨"a"⟩)
        ⟨Token.IDENT "a", Token.SEMICOLON, [], []⟩
      = (some (.Identifier ⟨"a"⟩), ⟨Token.IDENT "a", Token.SEMICOLON, [], []⟩) :=
  claim7_semicolon_stops_expression.1 0 BinaryOperator.Lowest
    (.Identifier ⟨"a"⟩) ⟨Token.IDENT "a", Token.SEMICOLON, [], []⟩ rfl

/-- C8: the Display rendering distinguishes token variants — equal rendered
strings imply equal variant tags — and the payload variants embed their
value: `IDENT(s)` renders as `IDENT(` ++ s ++ `)` and `INT(n)` as
`INT(` ++ decimal n ++ `)`. -/
theorem claim8_token_display_distinguishable :
    (∀ t1 t2 : Token, t1.toDisplay = t2.toDisplay → t1.tag = t2.tag)
    ∧ (∀ s : String, (Token.IDENT s).toDisplay = "IDENT(" ++ s ++ ")")
    ∧ (∀ n : Int, (Token.INT n).toDisplay = "INT(" ++ toString n ++ ")") := by
  refine ⟨?_, fun s => rfl, fun n => rfl⟩
  intro t1 t2 h
  cases t1 <;> cases t2 <;> first
    | rfl
    | exact absurd h (by decide)
    | (simp only [Token.toDisplay] at h
       rw [String.ext_iff] at h
       simp [String.data_append] at h)

/-- Witness for C8's distinguishability conjunct at two equal tokens. -/
theorem claim8_witness :
    Token.tag (Token.IDENT "x") = Token.tag (Token.IDENT "x") :=
  claim8_token_display_distinguishable.1 (Token.IDENT "x") (Token.IDENT "x") rfl

/-- C9: the fall-through arm of `parse_infix` is unreachable from the
`parse_expression` loop: whenever the loop guard holds (peek not
`SEMICOLON` and its precedence strictly above the minimum), the token that
becomes current after advancing is matched by an explicit arm of the
operator match (`infixOperatorOf` yields `some`). -/
theorem claim9_infix_fallthrough_unreachable
    (op : BinaryOperator) (p : Parser) (h1 : p.peek_token ≠ Token.SEMICOLON)
    (h2 : op.blt p.peek_token.to_binary_operator = true) :
    (infixOperatorOf (p.next_token).current_token).isSome = true := by
  obtain ⟨cur, pk, rest, er⟩ := p
  cases pk <;> first
    | rfl
    | simp [BinaryOperator.blt, BinaryOperator.rank, Token.to_binary_operator] at h2

/-- Witness for C9 with `PLUS` peeked above `Lowest`. -/
theorem claim9_witness :
    (infixOperatorOf ((Parser.next_token ⟨Token.EOF, Token.PLUS, [], []⟩).current_token)).isSome
      = true :=
  claim9_infix_fallthrough_unreachable BinaryOperator.Lowest
    ⟨Token.EOF, Token.PLUS, [], []⟩ (by decide) (by decide)

/-- C10: the Func literal rendering emits `fn(`, then every parameter's
name with `, ` appended after it — the last included — then `) ` and the
body's rendering: the argument segment equals the join of the parameters
each suffixed with `, `; a two-parameter function renders as
`fn(x, y, ) <body>` (trailing separator) and a zero-parameter function as
`fn() <body>`. -/
theorem claim10_func_display_trailing_separator :
    (∀ args : List Identifier,
        funcArgsStr args = String.join (args.map fun a => a.value ++ ", "))
    ∧ (∀ (x y : String) (body : BlockStatement),
        Literal.render (.Func (.mk [⟨x⟩, ⟨y⟩] body))
          = "fn(" ++ x ++ ", " ++ y ++ ", " ++ ") " ++ BlockStatement.render body)
    ∧ (∀ body : BlockStatement,
        Literal.render (.Func (.mk [] body)) = "fn() " ++ BlockStatement.render body) := by
  refine ⟨?_, ?_, fun body => rfl⟩
  · intro args
    induction args with
    | nil => rfl
    | cons a rest ih =>
        simp [funcArgsStr, ih, String.ext_iff, String.data_append, String.data_join]
  · intro x y body
    simp [Literal.render, funcArgsStr, String.ext_iff, String.data_append]

end Kmonkey
